import Mathlib

/-!
# Verification of `remote.c` (Lazymote low-power IR remote)

Shallow embedding of the firmware's pure core: the Sony 12-bit protocol
transmitter (modelled as the sequence of carrier on/off intervals it drives,
together with the hardware registers it touches), the button-to-command
lookup table and resolver, the debounce step of the main processing loop,
and the tick computations of the two idle-sleep macros.

Machine integers are modelled as `Nat`; the only registers the claims are
about (`TCCR0A`, `DDRB`, the Timer0 power bit) are carried explicitly as a
small state record.  An interval of the transmitted waveform is a pair
`(duration in microseconds, carrier active?)`; the carrier is active during
an interval exactly when the gating bits `TCCR0A` are nonzero and the output
pin is driven (`DDRB` nonzero), matching the gated-carrier scheme of the
source.
-/

/-- `PORTB_BUTTON_PIN_MASK` from remote.c: the four button input lines. -/
def PORTB_BUTTON_PIN_MASK : Nat := 0b00011110

/-- `PORTB_OUTPUT_PIN_MASK` from remote.c: the IR output line. -/
def PORTB_OUTPUT_PIN_MASK : Nat := 0b00000001

/-- `IR_CARRIER_FREQ` from remote.c (Hz). -/
def IR_CARRIER_FREQ : Nat := 40000

/-- `HEADER_BIT_DURATION` from remote.c (microseconds). -/
def HEADER_BIT_DURATION : Nat := 2400

/-- `ZERO_BIT_ON_DURATION` from remote.c (microseconds). -/
def ZERO_BIT_ON_DURATION : Nat := 600

/-- `ONE_BIT_ON_DURATION` from remote.c (microseconds). -/
def ONE_BIT_ON_DURATION : Nat := 1200

/-- `BIT_OFF_DURATION` from remote.c (microseconds). -/
def BIT_OFF_DURATION : Nat := 600

/-- `POST_DELAY_DURATION` from remote.c (milliseconds). -/
def POST_DELAY_DURATION : Nat := 45

/-- `DEBOUNCE_DURATION` from remote.c (milliseconds). -/
def DEBOUNCE_DURATION : Nat := 10

/-- The `command_defs` table from remote.c: `(pinmask, code)` pairs, in
source order.  A code's bits 0-6 are the command, bits 7-11 the address. -/
def command_defs : List (Nat × Nat) :=
  [ (0b00000010, 21 ||| (1 <<< 7)),   -- TV power
    (0b00000100, 18 ||| (1 <<< 7)),   -- TV volume up
    (0b00001000, 19 ||| (1 <<< 7)),   -- TV volume down
    (0b00001100, 20 ||| (1 <<< 7)),   -- TV mute (both volume buttons)
    (0b00010000, 37 ||| (1 <<< 7)) ]  -- TV input select

/-- The hardware registers touched by `transmit_sony_12bit_code`:
the Timer0 control register `TCCR0A` that gates the carrier, the port-B
data-direction register `DDRB`, and whether Timer0 is powered
(`power_timer0_enable` / `power_timer0_disable`). -/
structure HWState where
  TCCR0A : Nat
  DDRB : Nat
  timer0Powered : Bool
deriving Repr, DecidableEq

/-- `_BV(COM0A0) | _BV(WGM01)`: the TCCR0A value that connects the carrier
to the output pin (bit 6 and bit 1 on the ATtiny). -/
def ir_enabled : Nat := 0b01000010

/-- The carrier reaches the IR LED during a sleep interval exactly when the
gate is open (`TCCR0A` nonzero) and the pin is configured as an output
(`DDRB` nonzero). -/
def carrierActive (s : HWState) : Bool :=
  decide (s.TCCR0A ≠ 0) && decide (s.DDRB ≠ 0)

/-- The `for (i = 0; i < 12; i++)` data-bit loop of
`transmit_sony_12bit_code`: each iteration opens the gate, sleeps
1200 µs if `code & 1` else 600 µs, closes the gate, sleeps 600 µs, and
shifts `code` right by one.  Returns the final register state and the
interval trace, in order. -/
def txBits : HWState → Nat → Nat → HWState × List (Nat × Bool)
  | s, _, 0 => (s, [])
  | s, code, n+1 =>
      ((txBits { s with TCCR0A := 0 } (code / 2) n).1,
        ((if code % 2 = 1 then ONE_BIT_ON_DURATION else ZERO_BIT_ON_DURATION),
            carrierActive { s with TCCR0A := ir_enabled })
          :: (BIT_OFF_DURATION, carrierActive { s with TCCR0A := 0 })
          :: (txBits { s with TCCR0A := 0 } (code / 2) n).2)

/-- `transmit_sony_12bit_code` from remote.c: powers Timer0, sends the
2400 µs header mark and its 600 µs gap, runs the 12-bit data loop, then
drops `DDRB` to 0, powers Timer0 down, and sleeps `POST_DELAY_DURATION`
milliseconds (recorded here in microseconds).  Result: final register
state and the full interval trace. -/
def transmit_sony_12bit_code (s0 : HWState) (code : Nat) : HWState × List (Nat × Bool) :=
  let s1 : HWState := { s0 with timer0Powered := true }
  let s2 : HWState := { s1 with TCCR0A := ir_enabled, DDRB := PORTB_OUTPUT_PIN_MASK }
  let s3 : HWState := { s2 with TCCR0A := 0 }
  let r := txBits s3 code 12
  let s4 : HWState := { r.1 with DDRB := 0, timer0Powered := false }
  (s4,
    (HEADER_BIT_DURATION, carrierActive s2)
      :: (BIT_OFF_DURATION, carrierActive s3)
      :: (r.2 ++ [(POST_DELAY_DURATION * 1000, carrierActive s4)]))

/-- The register state set up by `main` before the first transmission:
`TCCR0A` configured for the carrier, all pins inputs, Timer0 unpowered
(after `power_all_disable`). -/
def hwInit : HWState := { TCCR0A := ir_enabled, DDRB := 0, timer0Powered := false }

/-- The waveform (interval trace) emitted for a code. -/
def sonyWave (code : Nat) : List (Nat × Bool) :=
  (transmit_sony_12bit_code hwInit code).2

/-- The LSB-first bit sequence the data-bit loop examines: bit `i` is
`code & 1` after `i` right-shifts. -/
def sonyBits : Nat → Nat → List Bool
  | _, 0 => []
  | code, n+1 => (code % 2 == 1) :: sonyBits (code / 2) n

/-- The pure interval trace of the data-bit loop (durations and carrier
flags, independent of the register bookkeeping). -/
def encodeBits : Nat → Nat → List (Nat × Bool)
  | _, 0 => []
  | code, n+1 =>
      ((if code % 2 = 1 then ONE_BIT_ON_DURATION else ZERO_BIT_ON_DURATION), true)
        :: (BIT_OFF_DURATION, false) :: encodeBits (code / 2) n

/-- Total carrier-on time of a trace (microseconds). -/
def carrierOnTime (w : List (Nat × Bool)) : Nat :=
  ((w.filter fun p => p.2).map Prod.fst).sum

/-- Total carrier-off time of a trace (microseconds). -/
def carrierOffTime (w : List (Nat × Bool)) : Nat :=
  ((w.filter fun p => !p.2).map Prod.fst).sum

/-- Modelled from the spec: a reference Sony-12-bit decoder for the data
bits.  It consumes, for each of `n` bits, a mark interval (1200 µs = 1 bit,
600 µs = 0 bit) followed by the exact 600 µs space, accumulating the value
LSB-first (`acc + 2 ^ i` for a 1 bit at position `i`); after the last bit it
requires a single trailing quiet interval strictly longer than the in-frame
space. -/
def decodeDataBits : Nat → Nat → Nat → List (Nat × Bool) → Option Nat
  | 0, _, acc, [(q, false)] => if BIT_OFF_DURATION < q then some acc else none
  | 0, _, _, _ => none
  | n+1, i, acc, (d, true) :: (g, false) :: rest =>
      if g = BIT_OFF_DURATION then
        if d = ONE_BIT_ON_DURATION then decodeDataBits n (i+1) (acc + 2 ^ i) rest
        else if d = ZERO_BIT_ON_DURATION then decodeDataBits n (i+1) acc rest
        else none
      else none
  | _+1, _, _, _ => none

/-- Modelled from the spec: the full reference Sony-12-bit decoder.  It
requires the 2400 µs header mark and its 600 µs gap, then 12 mark/space
data bits and the trailing quiet period, and returns the decoded code. -/
def sony_reference_decode : List (Nat × Bool) → Option Nat
  | (hd, true) :: (gp, false) :: rest =>
      if hd = HEADER_BIT_DURATION then
        if gp = BIT_OFF_DURATION then decodeDataBits 12 0 0 rest else none
      else none
  | _ => none

/-- An observable action of the main loop: one IR frame transmission, or
one idle sleep of a number of milliseconds. -/
inductive MainAction where
  | transmit (code : Nat)
  | sleep_ms (ms : Nat)
deriving Repr, DecidableEq

/-- Recognizes transmission actions. -/
def isTransmit : MainAction → Bool
  | MainAction.transmit _ => true
  | _ => false

/-- The linear scan inside `transmit_code_for_buttons`: the code of the
first table entry whose pinmask equals `buttons` exactly. -/
def find_command : List (Nat × Nat) → Nat → Option Nat
  | [], _ => none
  | e :: rest, buttons => if buttons = e.1 then some e.2 else find_command rest buttons

/-- `transmit_code_for_buttons` from remote.c, as the list of actions it
performs: transmit the first matching entry's code and return, or — when no
entry matches — sleep one debounce interval and return. -/
def transmit_code_for_buttons (buttons : Nat) : List MainAction :=
  match find_command command_defs buttons with
  | some code => [MainAction.transmit code]
  | none => [MainAction.sleep_ms DEBOUNCE_DURATION]

/-- `(~input) & PORTB_BUTTON_PIN_MASK` from `main`: the pressed-button mask
is the bitwise complement of the raw active-low 8-bit reading, restricted
to the button lines. -/
def pressedMask (input : Nat) : Nat :=
  (input ^^^ 0xFF) &&& PORTB_BUTTON_PIN_MASK

/-- Outcome of one iteration of the inner processing loop of `main`:
whether the loop breaks back to deep sleep, the stored previous sample
after the iteration, and the actions performed. -/
structure StepOut where
  toSleep : Bool
  lastInput : Nat
  actions : List MainAction
deriving Repr, DecidableEq

/-- One iteration of the inner processing loop of `main`, given the stored
previous sample `lastInput` and the freshly read sample `input`: if they
are identical the reading is accepted (break to deep sleep when nothing is
pressed, otherwise resolve and transmit); if they differ the new sample is
stored and the loop idle-sleeps one debounce interval before re-sampling. -/
def loop_step (lastInput input : Nat) : StepOut :=
  if input = lastInput then
    if pressedMask input = 0 then ⟨true, lastInput, []⟩
    else ⟨false, lastInput, transmit_code_for_buttons (pressedMask input)⟩
  else ⟨false, input, [MainAction.sleep_ms DEBOUNCE_DURATION]⟩

/-- Modelled from the spec: the nominal CPU clock is 1 MHz (`F_CPU` is a
build-system flag, not defined in remote.c). -/
def F_CPU : Nat := 1000000

/-- The tick count computed by the `idle_sleep_us` macro:
`(F_CPU*(unsigned long)(us))/(16*1000000)`, to be loaded into the 8-bit
compare register `OCR1A`. -/
def idle_sleep_us_ticks (us : Nat) : Nat :=
  (F_CPU * us) / (16 * 1000000)

/-- The tick count computed by the `idle_sleep_ms` macro:
`(F_CPU*(unsigned long)(ms))/(4096*1000L)`, to be loaded into the 8-bit
compare register `OCR1A`. -/
def idle_sleep_ms_ticks (ms : Nat) : Nat :=
  (F_CPU * ms) / (4096 * 1000)

/-! ## Helper lemmas -/

/-- Splitting a residue mod `2 ^ (n+1)` into the low bit and the residue of
the shifted value. -/
theorem mod_two_pow_succ (c n : Nat) :
    c % 2 ^ (n+1) = 2 * (c / 2 % 2 ^ n) + c % 2 := by
  have hp : 2 ^ (n+1) = 2 * 2 ^ n := by rw [pow_succ, Nat.mul_comm]
  have h1 : c / 2 % 2 ^ n = c % (2 * 2 ^ n) / 2 :=
    (Nat.mod_mul_right_div_self c 2 (2 ^ n)).symm
  have h2 : c % (2 * 2 ^ n) % 2 = c % 2 := Nat.mod_mod_of_dvd c ⟨2 ^ n, rfl⟩
  rw [hp, h1]
  generalize c % (2 * 2 ^ n) = m at h2 ⊢
  omega

/-- The data-bit trace depends only on the low `n` bits of the code. -/
theorem encodeBits_mod (n : Nat) :
    ∀ c1 c2, c1 % 2 ^ n = c2 % 2 ^ n → encodeBits c1 n = encodeBits c2 n := by
  induction n with
  | zero => intro c1 c2 _; rfl
  | succ n ih =>
      intro c1 c2 h
      have e1 := mod_two_pow_succ c1 n
      have e2 := mod_two_pow_succ c2 n
      have hb : c1 % 2 = c2 % 2 := by omega
      have hd : c1 / 2 % 2 ^ n = c2 / 2 % 2 ^ n := by omega
      simp [encodeBits, hb, ih (c1 / 2) (c2 / 2) hd]

/-- The register state after one or more data-bit iterations: the gate is
closed, everything else untouched. -/
theorem txBits_state (n : Nat) :
    ∀ s code, (txBits s code (n+1)).1 = { s with TCCR0A := 0 } := by
  induction n with
  | zero => intro s code; rfl
  | succ n ih =>
      intro s code
      show (txBits { s with TCCR0A := 0 } (code / 2) (n+1)).1 = { s with TCCR0A := 0 }
      rw [ih]

/-- While the output pin is driven, the data-bit loop's trace is the pure
bit encoding. -/
theorem txBits_trace (n : Nat) :
    ∀ s code, s.DDRB ≠ 0 → (txBits s code n).2 = encodeBits code n := by
  induction n with
  | zero => intro s code _; rfl
  | succ n ih =>
      intro s code h
      simp [txBits, encodeBits, carrierActive, ir_enabled, h]
      exact ih _ (code / 2) h

/-- The full interval trace of a transmission: header mark, header gap,
the 12 data bits, and the trailing quiet period — independent of the
initial register state. -/
theorem transmit_trace (s : HWState) (code : Nat) :
    (transmit_sony_12bit_code s code).2 =
      (HEADER_BIT_DURATION, true) :: (BIT_OFF_DURATION, false)
        :: (encodeBits code 12 ++ [(POST_DELAY_DURATION * 1000, false)]) := by
  simp only [transmit_sony_12bit_code]
  rw [txBits_state 11, txBits_trace 12 _ code (by simp [PORTB_OUTPUT_PIN_MASK])]
  simp [carrierActive, ir_enabled, PORTB_OUTPUT_PIN_MASK]

/-- The register state on return from a transmission: gate closed, all
pins inputs, Timer0 unpowered — independent of code and initial state. -/
theorem transmit_final_state (s : HWState) (code : Nat) :
    (transmit_sony_12bit_code s code).1 =
      { TCCR0A := 0, DDRB := 0, timer0Powered := false } := by
  simp only [transmit_sony_12bit_code]
  rw [txBits_state 11]

/-- The reference data-bit decoder inverts the data-bit encoder: fed the
encoding of the low `n` bits of `code` followed by a long-enough quiet
interval, it accumulates exactly `code % 2 ^ n`, LSB-first from
position `i`. -/
theorem decodeDataBits_encodeBits (n : Nat) :
    ∀ code i acc q, BIT_OFF_DURATION < q →
      decodeDataBits n i acc (encodeBits code n ++ [(q, false)]) =
        some (acc + code % 2 ^ n * 2 ^ i) := by
  induction n with
  | zero =>
      intro code i acc q hq
      simp [encodeBits, decodeDataBits, hq, Nat.mod_one]
  | succ n ih =>
      intro code i acc q hq
      have hm := mod_two_pow_succ code n
      rcases Nat.mod_two_eq_zero_or_one code with h | h
      · have harith :
            acc + code / 2 % 2 ^ n * 2 ^ (i+1) = acc + code % 2 ^ (n+1) * 2 ^ i := by
          rw [hm, h]; ring
        simp only [encodeBits, h, List.cons_append]
        rw [decodeDataBits]
        norm_num [ZERO_BIT_ON_DURATION, ONE_BIT_ON_DURATION, BIT_OFF_DURATION]
        rw [ih (code / 2) (i+1) acc q hq]
        exact congrArg some harith
      · have harith :
            acc + 2 ^ i + code / 2 % 2 ^ n * 2 ^ (i+1) = acc + code % 2 ^ (n+1) * 2 ^ i := by
          rw [hm, h]; ring
        simp only [encodeBits, h, List.cons_append]
        rw [decodeDataBits]
        norm_num [ZERO_BIT_ON_DURATION, ONE_BIT_ON_DURATION, BIT_OFF_DURATION]
        rw [ih (code / 2) (i+1) (acc + 2 ^ i) q hq]
        exact congrArg some harith

/-! ## Claim theorems -/

/-- C1: For every 12-bit code `c` (0 ≤ c < 4096), the waveform emitted by
`transmit_sony_12bit_code c` — a header mark, then 12 mark/space-coded bits
sent LSB-first (mark = 1200 µs for a 1 bit, 600 µs for a 0 bit, each
followed by a 600 µs space), then a quiet gap — decodes under the reference
Sony 12-bit decoder back to exactly `c`. -/
theorem sony_roundtrip_decodes (code : Nat) (h : code < 4096) :
    sony_reference_decode (sonyWave code) = some code := by
  rw [sonyWave, transmit_trace]
  rw [sony_reference_decode]
  rw [decodeDataBits_encodeBits 12 code 0 0 (POST_DELAY_DURATION * 1000)
    (by norm_num [BIT_OFF_DURATION, POST_DELAY_DURATION])]
  have h12 : code % 4096 = code := Nat.mod_eq_of_lt h
  simp [h12]

/-- Witness for C1 at the TV-power code 149. -/
theorem sony_roundtrip_decodes_witness :
    (149 : Nat) < 4096 ∧ sony_reference_decode (sonyWave 149) = some 149 :=
  ⟨by norm_num, sony_roundtrip_decodes 149 (by norm_num)⟩

/-- C2: a transmission uses exactly the durations header = 2400 µs,
bit-off = 600 µs, zero-on = 600 µs, one-on = 1200 µs, post-delay = 45 ms
(carrier 40 kHz); for code 0 the total carrier-on time is
2400 + 12×600 = 9600 µs, the carrier-off time within the frame is
13×600 = 7800 µs, and the frame is followed by the 45 ms quiet period. -/
theorem sony_timing_exact :
    HEADER_BIT_DURATION = 2400 ∧ BIT_OFF_DURATION = 600 ∧
    ZERO_BIT_ON_DURATION = 600 ∧ ONE_BIT_ON_DURATION = 1200 ∧
    POST_DELAY_DURATION = 45 ∧ IR_CARRIER_FREQ = 40000 ∧
    carrierOnTime (sonyWave 0) = 9600 ∧
    carrierOffTime (sonyWave 0).dropLast = 7800 ∧
    (sonyWave 0).getLast? = some (POST_DELAY_DURATION * 1000, false) := by
  decide

/-- C3: every pressed-button mask equal to the pinmask of a command-table
entry resolves, by exact whole-mask equality, to exactly that entry's code;
in particular the chord mask `0b00001100` resolves to the mute entry's code
148, not to the volume-up or volume-down single-button codes. -/
theorem resolver_exact_match :
    (∀ i : Fin command_defs.length,
        transmit_code_for_buttons (command_defs.get i).1
          = [MainAction.transmit (command_defs.get i).2]) ∧
    transmit_code_for_buttons 0b00001100 = [MainAction.transmit 148] ∧
    transmit_code_for_buttons 0b00001100
        ≠ [MainAction.transmit (18 ||| (1 <<< 7))] ∧
    transmit_code_for_buttons 0b00001100
        ≠ [MainAction.transmit (19 ||| (1 <<< 7))] := by
  decide

/-- C4, counterexample: the claim's stated LSB-first bit sequence for the
pinmask-`0b00000010` button is wrong — code 149 is transmitted, but its
bit sequence is not `1,0,1,0,1,0,0,1,0,1,0,0` (bit 9 of 149 is 0). -/
theorem power_button_bits_claim_false :
    ¬ (transmit_code_for_buttons 0b00000010 = [MainAction.transmit 149] ∧
        sonyBits 149 12 =
          [true, false, true, false, true, false, false, true,
           false, true, false, false]) := by
  decide

/-- C4, amended: pressing only the button line with pinmask `0b00000010`
transmits the code `21 ||| (1 <<< 7) = 149`, whose emitted LSB-first 12-bit
sequence is `1,0,1,0,1,0,0,1,0,0,0,0`, and the emitted waveform is exactly
the mark/space encoding of that bit sequence. -/
theorem power_button_transmits_149 :
    transmit_code_for_buttons 0b00000010
        = [MainAction.transmit (21 ||| (1 <<< 7))] ∧
    (21 ||| (1 <<< 7) : Nat) = 149 ∧
    sonyBits 149 12 =
      [true, false, true, false, true, false, false, true,
       false, false, false, false] ∧
    sonyWave 149 =
      (HEADER_BIT_DURATION, true) :: (BIT_OFF_DURATION, false) ::
        (((sonyBits 149 12).flatMap
            (fun b =>
              [((if b then ONE_BIT_ON_DURATION else ZERO_BIT_ON_DURATION), true),
               (BIT_OFF_DURATION, false)]))
          ++ [(POST_DELAY_DURATION * 1000, false)]) := by
  decide

/-- C5: for a pressed-button mask matching no command-table entry,
`transmit_code_for_buttons` performs zero transmissions and exactly one
idle sleep of the debounce duration. -/
theorem no_command_debounce_only (b : Nat)
    (h : command_defs.all (fun e => b != e.1) = true) :
    transmit_code_for_buttons b = [MainAction.sleep_ms DEBOUNCE_DURATION] ∧
    (transmit_code_for_buttons b).countP isTransmit = 0 := by
  simp only [command_defs, List.all_cons, List.all_nil, Bool.and_eq_true,
    bne_iff_ne, ne_eq, and_true] at h
  obtain ⟨h1, h2, h3, h4, h5⟩ := h
  have hfc : find_command command_defs b = none := by
    simp [find_command, command_defs, h1, h2, h3, h4, h5]
  have h0 : transmit_code_for_buttons b = [MainAction.sleep_ms DEBOUNCE_DURATION] := by
    simp [transmit_code_for_buttons, hfc]
  exact ⟨h0, by rw [h0]; rfl⟩

/-- Witness for C5 at the unmapped mask 3. -/
theorem no_command_debounce_only_witness :
    command_defs.all (fun e => (3 : Nat) != e.1) = true ∧
    (transmit_code_for_buttons 3 = [MainAction.sleep_ms DEBOUNCE_DURATION] ∧
      (transmit_code_for_buttons 3).countP isTransmit = 0) :=
  ⟨by decide, no_command_debounce_only 3 (by decide)⟩

/-- C6: in the debounce step of the main processing loop, a reading is
accepted (transmission or break back to deep sleep) only when the new
sample equals the stored previous sample; a differing sample always
restarts the wait — the new sample is stored, one debounce-interval sleep
is performed, and the loop re-samples (no break); and the pressed mask an
accepted reading uses is the bitwise complement of the raw reading
restricted to the button bits. -/
theorem debounce_step_spec (last input : Nat) :
    (input ≠ last →
        loop_step last input
          = ⟨false, input, [MainAction.sleep_ms DEBOUNCE_DURATION]⟩) ∧
    ((loop_step last input).actions.countP isTransmit ≠ 0 → input = last) ∧
    (input = last → pressedMask input ≠ 0 →
        (loop_step last input).actions
          = transmit_code_for_buttons (pressedMask input)) ∧
    (input = last → pressedMask input = 0 →
        (loop_step last input).toSleep = true) ∧
    (∀ k, (pressedMask input).testBit k
        = (!(input.testBit k) && PORTB_BUTTON_PIN_MASK.testBit k)) := by
  refine ⟨?_, ?_, ?_, ?_, ?_⟩
  · intro h
    simp [loop_step, h]
  · intro hc
    by_contra hne
    apply hc
    simp [loop_step, hne]
    rfl
  · intro he hm
    subst he
    simp [loop_step, hm]
  · intro he hm
    subst he
    simp [loop_step, hm]
  · intro k
    by_cases hk : k < 8
    · have h255 : Nat.testBit 255 k = true := by
        have h8 : (255 : Nat) = 2 ^ 8 - 1 := by norm_num
        rw [h8, Nat.testBit_two_pow_sub_one]
        simpa using hk
      simp [pressedMask, PORTB_BUTTON_PIN_MASK, Nat.testBit_land,
        Nat.testBit_xor, h255, Bool.xor_true]
    · have h30 : (30 : Nat).testBit k = false := by
        apply Nat.testBit_eq_false_of_lt
        calc (30 : Nat) < 2 ^ 8 := by norm_num
          _ ≤ 2 ^ k := Nat.pow_le_pow_right (by norm_num) (by omega)
      simp [pressedMask, PORTB_BUTTON_PIN_MASK, Nat.testBit_land, h30]

/-- Witness for C6: a differing sample (2 after 0) restarts the wait, and
an identical stable sample (raw 253, pressed mask 2) is accepted and
resolves through the command table. -/
theorem debounce_step_spec_witness :
    loop_step 0 2 = ⟨false, 2, [MainAction.sleep_ms DEBOUNCE_DURATION]⟩ ∧
    (loop_step 253 253).actions = transmit_code_for_buttons (pressedMask 253) ∧
    (pressedMask 253).testBit 1
      = (!((253 : Nat).testBit 1) && PORTB_BUTTON_PIN_MASK.testBit 1) :=
  ⟨(debounce_step_spec 0 2).1 (by decide),
   (debounce_step_spec 253 253).2.2.1 rfl (by decide),
   (debounce_step_spec 253 253).2.2.2.2 1⟩

/-- C7: the compiled-in command table has pairwise distinct, nonzero
pinmasks, and every code fits in 12 bits. -/
theorem command_table_invariants :
    (command_defs.map Prod.fst).Nodup ∧
    command_defs.all (fun e => decide (e.1 ≠ 0) && decide (e.2 < 4096)) = true := by
  decide

/-- C8: at the nominal 1 MHz clock, the microsecond idle-sleep variant
computes `us·F_CPU/(16·10^6)` ticks, fitting the 8-bit compare register
over the representable range 16–4080 µs (one tick at 16 µs, 255 at
4080 µs, zero below 16 µs); the millisecond variant computes
`ms·F_CPU/(4096·1000)` ticks, fitting over approximately 5–1045 ms. -/
theorem idle_sleep_tick_ranges :
    (∀ us, 16 ≤ us → us ≤ 4080 →
        1 ≤ idle_sleep_us_ticks us ∧ idle_sleep_us_ticks us ≤ 255) ∧
    idle_sleep_us_ticks 16 = 1 ∧ idle_sleep_us_ticks 4080 = 255 ∧
    idle_sleep_us_ticks 15 = 0 ∧
    (∀ ms, 5 ≤ ms → ms ≤ 1045 →
        1 ≤ idle_sleep_ms_ticks ms ∧ idle_sleep_ms_ticks ms ≤ 255) ∧
    idle_sleep_ms_ticks 5 = 1 ∧ idle_sleep_ms_ticks 1045 = 255 ∧
    idle_sleep_ms_ticks 4 = 0 := by
  refine ⟨?_, by decide, by decide, by decide, ?_, by decide, by decide, by decide⟩
  · intro us h1 h2
    simp only [idle_sleep_us_ticks, F_CPU]
    omega
  · intro ms h1 h2
    simp only [idle_sleep_ms_ticks, F_CPU]
    omega

/-- Witness for C8 at 600 µs (one Sony bit space) and 45 ms (the
post-transmission delay). -/
theorem idle_sleep_tick_ranges_witness :
    (1 ≤ idle_sleep_us_ticks 600 ∧ idle_sleep_us_ticks 600 ≤ 255) ∧
    (1 ≤ idle_sleep_ms_ticks 45 ∧ idle_sleep_ms_ticks 45 ≤ 255) :=
  ⟨idle_sleep_tick_ranges.1 600 (by norm_num) (by norm_num),
   idle_sleep_tick_ranges.2.2.2.2.1 45 (by norm_num) (by norm_num)⟩

/-- C9: the transmitted waveform (and the final register state) depends
only on the low 12 bits of the code: codes congruent mod 4096 produce
identical results, for any initial register state. -/
theorem transmit_depends_on_low_12_bits (s : HWState) (c1 c2 : Nat)
    (h : c1 % 4096 = c2 % 4096) :
    transmit_sony_12bit_code s c1 = transmit_sony_12bit_code s c2 := by
  have h12 : c1 % 2 ^ 12 = c2 % 2 ^ 12 := by norm_num [h]
  have hstate := (transmit_final_state s c1).trans (transmit_final_state s c2).symm
  have htrace : (transmit_sony_12bit_code s c1).2 = (transmit_sony_12bit_code s c2).2 := by
    rw [transmit_trace, transmit_trace, encodeBits_mod 12 c1 c2 h12]
  exact Prod.ext hstate htrace

/-- Witness for C9 at codes 4101 and 5 (equal mod 4096). -/
theorem transmit_depends_on_low_12_bits_witness :
    (4101 % 4096 : Nat) = 5 % 4096 ∧
    transmit_sony_12bit_code hwInit 4101 = transmit_sony_12bit_code hwInit 5 :=
  ⟨by norm_num, transmit_depends_on_low_12_bits hwInit 4101 5 (by norm_num)⟩

/-- C10: every transmission, for any code and any initial register state,
returns with the carrier gate cleared (`TCCR0A = 0`), all port-B pins
inputs (`DDRB = 0`), and Timer0 powered down; and the trailing 45 ms quiet
interval is driven with the output already released (carrier flag off). -/
theorem transmit_releases_output (s : HWState) (code : Nat) :
    (transmit_sony_12bit_code s code).1
        = { TCCR0A := 0, DDRB := 0, timer0Powered := false } ∧
    (transmit_sony_12bit_code s code).2.getLast?
        = some (POST_DELAY_DURATION * 1000, false) := by
  refine ⟨transmit_final_state s code, ?_⟩
  have hsplit : (transmit_sony_12bit_code s code).2
      = ((HEADER_BIT_DURATION, true) :: (BIT_OFF_DURATION, false)
          :: encodeBits code 12)
        ++ [(POST_DELAY_DURATION * 1000, false)] := by
    rw [transmit_trace]
    simp
  rw [hsplit, List.getLast?_concat]
